import Mathlib

/-!
Shallow embedding of `src/Task-2/generate_report.py`, a two-stage pipeline:
a data analyzer (`read_and_analyze_data`: pandas CSV load, numeric coercion,
`dropna`, per-product `groupby` aggregation, `idxmax` top seller) and a PDF
renderer (`generate_sales_report`).  Numeric cells are modelled as exact
rationals (the claims about sums hold exactly here, hence within any
floating-point tolerance); a cell whose coercion failed is `none`, matching
`pd.to_numeric(errors="coerce")` producing NaN.  File loading and the PDF
write are modelled as explicit `Except`-valued inputs, so a Python exception
escaping a function would appear as an `.error` result of the embedding.
The rendered PDF is modelled as the list of text contents of the cells the
code emits, in emission order; fonts, widths and pagination carry no data
and are outside the embedding.
-/

namespace SalesReport

/-- One CSV row after `pd.read_csv` and the two `pd.to_numeric(errors="coerce")`
calls: `product` is the Product cell (`none` when the cell is missing/NaN),
`quantity` and `unitPrice` are `none` exactly when the cell could not be
parsed as a number (pandas NaN). -/
structure RawRecord where
  product : Option String
  quantity : Option ℚ
  unitPrice : Option ℚ
deriving DecidableEq, Repr

/-- A row retained by `df.dropna(subset=["Quantity", "UnitPrice"])`:
both numeric fields are present; the Product cell may still be missing. -/
structure CleanRecord where
  product : Option String
  quantity : ℚ
  unitPrice : ℚ
deriving DecidableEq, Repr

/-- Embeds `df.dropna(subset=["Quantity", "UnitPrice"], inplace=True)`: keep exactly
the rows whose two coerced numeric fields are both present. -/
def dropna (rows : List RawRecord) : List CleanRecord :=
  rows.filterMap fun r =>
    match r.quantity, r.unitPrice with
    | some q, some p => some ⟨r.product, q, p⟩
    | _, _ => none

/-- Embeds `df["TotalPrice"] = df["Quantity"] * df["UnitPrice"]`. -/
def TotalPrice (r : CleanRecord) : ℚ := r.quantity * r.unitPrice

/-- One row of the `product_summary` data frame produced by
`df.groupby("Product").agg(...).reset_index()`. -/
structure SummaryRow where
  product : String
  TotalQuantity : ℚ
  TotalRevenue : ℚ
deriving DecidableEq, Repr

/-- The group keys of `df.groupby("Product")`: the distinct present Product
values, in ascending order (pandas `groupby` sorts keys by default and drops
NaN keys). -/
def groupKeys (rows : List CleanRecord) : List String :=
  List.insertionSort (· ≤ ·) (rows.filterMap CleanRecord.product).dedup

/-- The rows of one `groupby("Product")` group. -/
def groupRows (rows : List CleanRecord) (k : String) : List CleanRecord :=
  rows.filter fun r => decide (r.product = some k)

/-- Embeds `df.groupby("Product").agg(TotalQuantity=("Quantity", "sum"),
TotalRevenue=("TotalPrice", "sum")).reset_index()`: one row per group key in
key order, summing Quantity and TotalPrice within the group. -/
def product_summary (rows : List CleanRecord) : List SummaryRow :=
  (groupKeys rows).map fun k =>
    { product := k
      TotalQuantity := ((groupRows rows k).map CleanRecord.quantity).sum
      TotalRevenue := ((groupRows rows k).map TotalPrice).sum }

/-- Embeds `total_revenue = df["TotalPrice"].sum()`: over all retained rows,
whether or not their Product cell is present. -/
def total_revenue (rows : List CleanRecord) : ℚ :=
  (rows.map TotalPrice).sum

/-- Scan for `product_summary["TotalRevenue"].idxmax()`: the running best row,
replaced only on strictly larger revenue, so the first maximal row wins
(pandas `idxmax` returns the first occurrence of the maximum). -/
def firstMaxRow (best : SummaryRow) : List SummaryRow → SummaryRow
  | [] => best
  | r :: rs => firstMaxRow (if best.TotalRevenue < r.TotalRevenue then r else best) rs

/-- Embeds `product_summary.loc[product_summary["TotalRevenue"].idxmax()]["Product"]`
when the summary is non-empty, `""` otherwise. -/
def top_selling_product : List SummaryRow → String
  | [] => ""
  | r :: rs => (firstMaxRow r rs).product

/-- The outcome of `pd.read_csv(file_path)` together with the column accesses
that follow it inside the `try` block: the file may be absent
(`FileNotFoundError`), the load or analysis may fail in any other way
(`except Exception`), or a table of records is obtained. -/
inductive CsvInput where
  | fileNotFound
  | loadError (msg : String)
  | table (rows : List RawRecord)

/-- Embeds `read_and_analyze_data(file_path)`: on a missing file or any other
load/analysis failure, return the recovered empty triple; otherwise clean,
aggregate, total and pick the top seller. -/
def read_and_analyze_data : CsvInput → List SummaryRow × ℚ × String
  | .fileNotFound => ([], 0, "")
  | .loadError _ => ([], 0, "")
  | .table rows =>
      let df := dropna rows
      let summary := product_summary df
      (summary, total_revenue df, top_selling_product summary)

/-- Python `int(x)` on the quantity total: truncation toward zero. -/
def intTrunc (q : ℚ) : Int := q.num.tdiv (q.den : Int)

/-- Split a reversed digit string into groups of three, least significant
group first (helper for thousands separators). -/
def chunk3 : List Char → List (List Char)
  | [] => []
  | [a] => [[a]]
  | [a, b] => [[a, b]]
  | a :: b :: c :: rest => [a, b, c] :: chunk3 rest

/-- Insert thousands separators into a digit string. -/
def insertCommas (s : String) : String :=
  String.intercalate "," (((chunk3 s.data.reverse).map fun g => String.mk g.reverse).reverse)

/-- Render a signed number of cents as dollars with two decimals and
thousands separators. -/
def formatCents (cents : Int) : String :=
  let sign := if cents < 0 then "-" else ""
  let n := cents.natAbs
  (sign ++ insertCommas (toString (n / 100))) ++ "." ++
    (if n % 100 < 10 then "0" else "") ++ toString (n % 100)

/-- The Python format expression on a total, two decimals and thousands
separators, on the exact rational value (rounded to the nearest cent). -/
def formatMoney (q : ℚ) : String :=
  formatCents (round (q * 100))

/-- The `multi_cell` text of the Executive Summary section (the three
sentences the code interpolates `total_revenue` and `top_selling_product`
into; `\x27` is the ASCII single quote the code wraps the product in). -/
def summaryParagraph (tr : ℚ) (top : String) : String :=
  "This report provides an overview of sales performance. The total revenue generated is $"
    ++ formatMoney tr ++ ". The top-selling product by revenue is \x27" ++ top ++ "\x27."

/-- The italic line the code emits in place of the table when the summary
data frame is empty. -/
def noDataLine : String := "No product sales data to display."

/-- The three cells the code emits for one summary row: product name,
truncated integer quantity, formatted revenue with currency prefix. -/
def tableCells (summary : List SummaryRow) : List String :=
  summary.flatMap fun r =>
    [r.product, toString (intTrunc r.TotalQuantity), "$" ++ formatMoney r.TotalRevenue]

/-- The text cells of the generated PDF, in emission order: running header
title, Executive Summary heading and paragraph, section heading, then either
the table (header row cells followed by the data cells row by row) or the
no-data line. -/
def render (summary : List SummaryRow) (tr : ℚ) (top : String) : List String :=
  ["Monthly Sales Performance Report", "Executive Summary", summaryParagraph tr top,
   "Product-wise Sales Performance"] ++
  if summary.isEmpty then [noDataLine]
  else ["Product", "Total Quantity", "Total Revenue ($)"] ++ tableCells summary

/-- Embeds `generate_sales_report(...)`: builds the document, then attempts
`pdf.output(output_filename)` inside a `try` block, modelled by the `write`
argument.  The result type is `Except`: an exception escaping the Python
function would be an `.error` value; the function in fact always returns
normally with the document and the console message it prints. -/
def generate_sales_report (summary : List SummaryRow) (tr : ℚ) (top : String)
    (write : List String → Except String Unit) : Except String (List String × String) :=
  let doc := render summary tr top
  match write doc with
  | .ok _ => .ok (doc, "Report successfully generated")
  | .error e => .ok (doc, "Error saving PDF report: " ++ e)

/-- What the `__main__` driver does after the analysis step: if the summary
is empty it only prints a message and never calls the renderer; otherwise it
calls `generate_sales_report` on the analysis triple. -/
inductive MainAction where
  | printNoData
  | renderReport (doc : List String)
deriving DecidableEq, Repr

/-- Whether the driver invoked the renderer. -/
def MainAction.rendererRan : MainAction → Bool
  | .printNoData => false
  | .renderReport _ => true

/-- Embeds the `__main__` block: analyze, then branch on `product_summary.empty`. -/
def mainPipeline (inp : CsvInput) : MainAction :=
  match read_and_analyze_data inp with
  | (summary, tr, top) =>
    if summary.isEmpty then .printNoData
    else .renderReport (render summary tr top)

/-- Truth value of a Python call returning instead of raising: an `Except`
value is `ok` exactly when no exception escaped. -/
def isOk : Except String α → Bool
  | .ok _ => true
  | .error _ => false

/-! ### Helper lemmas about the analyzer -/

/-- Names of the summary rows are exactly the group keys, in order. -/
lemma map_product_product_summary (rows : List CleanRecord) :
    (product_summary rows).map SummaryRow.product = groupKeys rows := by
  unfold product_summary
  rw [List.map_map]
  exact (List.map_congr_left fun k _ => rfl).trans (List.map_id _)

/-- Group keys are distinct. -/
lemma groupKeys_nodup (rows : List CleanRecord) : (groupKeys rows).Nodup :=
  ((List.perm_insertionSort _ _).nodup_iff).mpr (List.nodup_dedup _)

/-- Group keys are strictly ascending. -/
lemma groupKeys_sorted (rows : List CleanRecord) :
    List.Sorted (· < ·) (groupKeys rows) :=
  (List.sorted_insertionSort _ _).lt_of_le (groupKeys_nodup rows)

/-- Membership in the group keys is membership among the present Product
values of the cleaned rows. -/
lemma mem_groupKeys (rows : List CleanRecord) (k : String) :
    k ∈ groupKeys rows ↔ k ∈ rows.filterMap CleanRecord.product := by
  unfold groupKeys
  rw [(List.perm_insertionSort _ _).mem_iff, List.mem_dedup]

/-- The analyzer applied to a table is the aggregation triple. -/
lemma read_table_eq (rows : List RawRecord) :
    read_and_analyze_data (.table rows) =
      (product_summary (dropna rows), total_revenue (dropna rows),
        top_selling_product (product_summary (dropna rows))) := rfl

/-- Cleaning distributes over list append. -/
lemma dropna_append (xs ys : List RawRecord) :
    dropna (xs ++ ys) = dropna xs ++ dropna ys := by
  simp [dropna, List.filterMap_append]

/-- A retained row keeps the Product cell of the raw row it came from. -/
lemma mem_dropna_product (rows : List RawRecord) (c : CleanRecord)
    (hc : c ∈ dropna rows) : ∃ r ∈ rows, c.product = r.product := by
  unfold dropna at hc
  rw [List.mem_filterMap] at hc
  obtain ⟨r, hr, he⟩ := hc
  refine ⟨r, hr, ?_⟩
  cases hq : r.quantity <;> cases hp : r.unitPrice <;> simp [hq, hp] at he
  rw [← he]

/-! ### C5, C6, C7, C9 -/

/-- Claim C5: `read_and_analyze_data` never raises to its caller: on a
missing input file and on any other load or analysis failure it returns the
empty triple (empty summary, zero revenue, empty top-product string) instead
of propagating the error. -/
theorem analyzer_recovers_on_failure :
    read_and_analyze_data .fileNotFound = ([], 0, "") ∧
    ∀ msg, read_and_analyze_data (.loadError msg) = ([], 0, "") :=
  ⟨rfl, fun _ => rfl⟩

/-- Claim C6: `generate_sales_report` never raises past its boundary: for
every input and every write outcome it returns normally (the `Except` result
is `ok`), and a failing output write is absorbed and reported in the console
message rather than propagated. -/
theorem report_absorbs_failures (summary : List SummaryRow) (tr : ℚ) (top : String)
    (write : List String → Except String Unit) :
    isOk (generate_sales_report summary tr top write) = true ∧
    ∀ e, write (render summary tr top) = .error e →
      generate_sales_report summary tr top write =
        .ok (render summary tr top, "Error saving PDF report: " ++ e) := by
  constructor
  · cases h : write (render summary tr top) <;>
      simp [generate_sales_report, h, isOk]
  · intro e he
    simp [generate_sales_report, he]

/-- Closed instance of C6 at a concrete failing write. -/
theorem report_absorbs_failures_witness :
    isOk (generate_sales_report [] 0 "" fun _ => .error "disk full") = true ∧
    generate_sales_report [] 0 "" (fun _ => .error "disk full") =
      .ok (render [] 0 "", "Error saving PDF report: " ++ "disk full") :=
  ⟨(report_absorbs_failures [] 0 "" _).1,
    (report_absorbs_failures [] 0 "" _).2 "disk full" rfl⟩

/-- Claim C7: the rows of the returned Product Summary are strictly
ascending in the Product identifier, for every input. -/
theorem summary_sorted_by_product (rows : List RawRecord) :
    List.Sorted (· < ·) ((read_and_analyze_data (.table rows)).1.map SummaryRow.product) := by
  rw [read_table_eq, map_product_product_summary]
  exact groupKeys_sorted _

/-- Claim C9: the analyzer is deterministic and stateless: two runs on the
same unchanged input produce identical summaries, totals and top products. -/
theorem analyzer_idempotent (inp₁ inp₂ : CsvInput) (h : inp₁ = inp₂) :
    read_and_analyze_data inp₁ = read_and_analyze_data inp₂ := by rw [h]

/-- Closed instance of C9 on a concrete table. -/
theorem analyzer_idempotent_witness :
    CsvInput.table [⟨some "A", some 2, some 10⟩] = CsvInput.table [⟨some "A", some 2, some 10⟩] ∧
    read_and_analyze_data (.table [⟨some "A", some 2, some 10⟩]) =
      read_and_analyze_data (.table [⟨some "A", some 2, some 10⟩]) :=
  ⟨rfl, analyzer_idempotent _ _ rfl⟩

/-! ### C2 -/

/-- Evaluation of the money format at zero. -/
lemma formatMoney_zero : formatMoney 0 = "0.00" := by
  rw [formatMoney, show round ((0 : ℚ) * 100) = 0 by norm_num]
  decide

/-- Counterexample to C2 as stated: on an input with zero retained records
the `__main__` driver does not run the renderer at all; it prints the
missing-data message instead. -/
theorem main_skips_renderer_on_empty :
    (mainPipeline (.table [])).rendererRan = false := rfl

/-- Claim C2 (amended): an input with zero retained records yields the empty
triple, on which the driver skips rendering and prints the missing-data
message; the renderer itself, applied to the empty triple, produces a
document containing the no-data line and no table header. -/
theorem empty_input_empty_triple (rows : List RawRecord) (h : dropna rows = []) :
    read_and_analyze_data (.table rows) = ([], 0, "") ∧
    mainPipeline (.table rows) = .printNoData ∧
    noDataLine ∈ render [] 0 "" ∧
    "Product" ∉ render [] 0 "" := by
  have h1 : read_and_analyze_data (.table rows) = ([], 0, "") := by
    rw [read_table_eq, h]; rfl
  refine ⟨h1, ?_, ?_, ?_⟩
  · unfold mainPipeline
    rw [h1]
    rfl
  · simp [render, noDataLine]
  · simp [render, noDataLine, summaryParagraph, formatMoney_zero]

/-- Closed instance of C2 (amended) at the all-invalid one-row input of the
specification scenario. -/
theorem empty_input_empty_triple_witness :
    dropna [⟨some "A", none, some 10⟩] = [] ∧
    (read_and_analyze_data (.table [⟨some "A", none, some 10⟩]) = ([], 0, "") ∧
      mainPipeline (.table [⟨some "A", none, some 10⟩]) = .printNoData ∧
      noDataLine ∈ render [] 0 "" ∧
      "Product" ∉ render [] 0 "") :=
  ⟨rfl, empty_input_empty_triple _ rfl⟩

/-! ### C10 -/

/-- Claim C10: a record with a missing Product cell but numeric Quantity and
UnitPrice survives the cleaning step, its revenue is counted in
`total_revenue`, and the grouped Product Summary is unchanged by it (no row
is produced for it). -/
theorem missing_product_record (pre post : List RawRecord) (r : RawRecord) (q p : ℚ)
    (h1 : r.product = none) (h2 : r.quantity = some q) (h3 : r.unitPrice = some p) :
    (⟨none, q, p⟩ : CleanRecord) ∈ dropna (pre ++ r :: post) ∧
    total_revenue (dropna (pre ++ r :: post)) =
      total_revenue (dropna (pre ++ post)) + q * p ∧
    product_summary (dropna (pre ++ r :: post)) =
      product_summary (dropna (pre ++ post)) := by
  have hr : dropna [r] = [⟨none, q, p⟩] := by
    simp [dropna, List.filterMap, h1, h2, h3]
  have key : dropna (pre ++ r :: post) = dropna pre ++ ⟨none, q, p⟩ :: dropna post := by
    rw [show r :: post = [r] ++ post from rfl, dropna_append, dropna_append, hr]
    simp
  refine ⟨by rw [key]; simp, ?_, ?_⟩
  · rw [key, dropna_append]
    simp [total_revenue, TotalPrice]
    ring
  · rw [key, dropna_append]
    have hk : groupKeys (dropna pre ++ ⟨none, q, p⟩ :: dropna post) =
        groupKeys (dropna pre ++ dropna post) := by
      simp [groupKeys, List.filterMap_append, List.filterMap_cons]
    have hg : ∀ k, groupRows (dropna pre ++ ⟨none, q, p⟩ :: dropna post) k =
        groupRows (dropna pre ++ dropna post) k := by
      intro k
      simp [groupRows, List.filter_append, List.filter_cons]
    simp [product_summary, hk, hg]

/-- Closed instance of C10 at a one-record table with a missing Product. -/
theorem missing_product_record_witness :
    (⟨none, 2, 3⟩ : CleanRecord) ∈ dropna ([] ++ (⟨none, some 2, some 3⟩ : RawRecord) :: []) ∧
    total_revenue (dropna ([] ++ (⟨none, some 2, some 3⟩ : RawRecord) :: [])) =
      total_revenue (dropna ([] ++ [])) + 2 * 3 ∧
    product_summary (dropna ([] ++ (⟨none, some 2, some 3⟩ : RawRecord) :: [])) =
      product_summary (dropna ([] ++ [])) :=
  missing_product_record [] [] _ 2 3 rfl rfl rfl

/-! ### C4 -/

/-- The records a cleaning pass retains plus the records it drops account
for the whole input. -/
lemma dropna_length (rows : List RawRecord) :
    (dropna rows).length +
      (rows.filter fun r => r.quantity.isNone || r.unitPrice.isNone).length =
      rows.length := by
  induction rows with
  | nil => rfl
  | cons r rest ih =>
      cases hq : r.quantity <;> cases hp : r.unitPrice <;>
        simp [dropna, List.filterMap_cons, List.filter_cons, hq, hp] at ih ⊢ <;>
        omega

/-- Records whose numeric fields both parsed are all that cleaning keeps:
pre-filtering them away changes nothing. -/
lemma dropna_filter_valid (rows : List RawRecord) :
    dropna (rows.filter fun r => r.quantity.isSome && r.unitPrice.isSome) =
      dropna rows := by
  induction rows with
  | nil => rfl
  | cons r rest ih =>
      cases hq : r.quantity <;> cases hp : r.unitPrice <;>
        simp [dropna, List.filterMap_cons, List.filter_cons, hq, hp] at ih ⊢ <;>
        exact ih

/-- Claim C4: every record whose Quantity or UnitPrice failed numeric
coercion is dropped entirely before aggregation (retained count plus dropped
count equals the original count), and the analysis result is the same as on
the input restricted to its fully-numeric records. -/
theorem invalid_records_dropped (rows : List RawRecord) :
    (dropna rows).length +
      (rows.filter fun r => r.quantity.isNone || r.unitPrice.isNone).length =
      rows.length ∧
    read_and_analyze_data
        (.table (rows.filter fun r => r.quantity.isSome && r.unitPrice.isSome)) =
      read_and_analyze_data (.table rows) := by
  refine ⟨dropna_length rows, ?_⟩
  rw [read_table_eq, read_table_eq, dropna_filter_valid]

/-! ### C1 -/

/-- Summing over distinct keys, adding a constant at one present key adds it
once to the total. -/
lemma sum_if_key (keys : List String) (k0 : String) (c : ℚ) (g : String → ℚ)
    (hnd : keys.Nodup) (hmem : k0 ∈ keys) :
    (keys.map fun k => if k0 = k then c + g k else g k).sum = c + (keys.map g).sum := by
  induction keys with
  | nil => cases hmem
  | cons k ks ih =>
      obtain ⟨hk, hnd'⟩ := List.nodup_cons.mp hnd
      by_cases h : k0 = k
      · subst h
        have htail : (ks.map fun k => if k0 = k then c + g k else g k) = ks.map g := by
          refine List.map_congr_left fun k' hk' => ?_
          have hne : k0 ≠ k' := by
            intro he
            subst he
            exact hk hk'
          rw [if_neg hne]
        simp [htail]
        ring
      · have hmem' : k0 ∈ ks := (List.mem_cons.mp hmem).resolve_left h
        simp [if_neg h, ih hnd' hmem']
        ring

/-- A sum over all rows equals the sum over groups of the per-group sums,
provided the keys are distinct and cover every row. -/
lemma sum_over_groups (keys : List String) (rows : List CleanRecord) (f : CleanRecord → ℚ)
    (hnd : keys.Nodup) (hcov : ∀ r ∈ rows, ∃ k, k ∈ keys ∧ r.product = some k) :
    (keys.map fun k => ((groupRows rows k).map f).sum).sum = (rows.map f).sum := by
  induction rows with
  | nil =>
      simp [groupRows]
  | cons r rest ih =>
      obtain ⟨k0, hk0mem, hk0⟩ := hcov r (List.mem_cons_self r rest)
      have step : ∀ k, groupRows (r :: rest) k =
          if k0 = k then r :: groupRows rest k else groupRows rest k := by
        intro k
        simp [groupRows, List.filter_cons, hk0]
      calc (keys.map fun k => ((groupRows (r :: rest) k).map f).sum).sum
          = (keys.map fun k => if k0 = k then f r + ((groupRows rest k).map f).sum
              else ((groupRows rest k).map f).sum).sum := by
            refine congrArg _ (List.map_congr_left fun k _ => ?_)
            rw [step k]
            split <;> simp
        _ = f r + (keys.map fun k => ((groupRows rest k).map f).sum).sum :=
            sum_if_key keys k0 (f r) _ hnd hk0mem
        _ = f r + (rest.map f).sum := by
            rw [ih fun r' hr' => hcov r' (List.mem_cons_of_mem _ hr')]
        _ = ((r :: rest).map f).sum := by simp

/-- Counterexample to C1 as stated: on the one-record input whose Product
cell is missing but whose numeric fields parse, `total_revenue` is 1 while
the returned Product Summary is empty, so the sum of its `TotalRevenue`
column is 0; the discrepancy is the full revenue of the record, not a
floating-point rounding artifact. -/
theorem total_neq_summary_sum_missing_product :
    ¬ ((read_and_analyze_data (.table [⟨none, some 1, some 1⟩])).2.1 =
        ((read_and_analyze_data (.table [⟨none, some 1, some 1⟩])).1.map
          SummaryRow.TotalRevenue).sum) := by
  intro h
  simp [read_table_eq, dropna, List.filterMap, product_summary, groupKeys,
    total_revenue, TotalPrice, List.dedup] at h

/-- Claim C1 (amended): for every input all of whose records carry a present
Product cell, the returned `total_revenue` equals the sum of the
`TotalRevenue` values over the rows of the returned Product Summary
(exactly, hence within any floating-point tolerance). -/
theorem total_revenue_eq_summary_sum (rows : List RawRecord)
    (h : ∀ r ∈ rows, r.product.isSome) :
    (read_and_analyze_data (.table rows)).2.1 =
      ((read_and_analyze_data (.table rows)).1.map SummaryRow.TotalRevenue).sum := by
  rw [read_table_eq]
  show total_revenue (dropna rows) =
    ((product_summary (dropna rows)).map SummaryRow.TotalRevenue).sum
  have hR : (product_summary (dropna rows)).map SummaryRow.TotalRevenue =
      (groupKeys (dropna rows)).map
        (fun k => ((groupRows (dropna rows) k).map TotalPrice).sum) := by
    unfold product_summary
    rw [List.map_map]
    rfl
  rw [hR, sum_over_groups _ _ _ (groupKeys_nodup _) ?hcov]
  · rfl
  case hcov =>
    intro c hc
    obtain ⟨r, hr, hp⟩ := mem_dropna_product _ _ hc
    obtain ⟨k, hk⟩ := Option.isSome_iff_exists.mp (h r hr)
    refine ⟨k, ?_, by rw [hp, hk]⟩
    rw [mem_groupKeys, List.mem_filterMap]
    exact ⟨c, hc, by rw [hp, hk]⟩

/-- Closed instance of C1 (amended) at the two-product scenario input. -/
theorem total_revenue_eq_summary_sum_witness :
    (∀ r ∈ [(⟨some "A", some 2, some 10⟩ : RawRecord), ⟨some "B", some 1, some 5⟩,
        ⟨some "A", some 3, some 10⟩], r.product.isSome) ∧
    (read_and_analyze_data (.table [⟨some "A", some 2, some 10⟩, ⟨some "B", some 1, some 5⟩,
        ⟨some "A", some 3, some 10⟩])).2.1 =
      ((read_and_analyze_data (.table [⟨some "A", some 2, some 10⟩, ⟨some "B", some 1, some 5⟩,
        ⟨some "A", some 3, some 10⟩])).1.map SummaryRow.TotalRevenue).sum :=
  ⟨by decide, total_revenue_eq_summary_sum _ (by decide)⟩

/-! ### C3 -/

/-- Decomposition of the `idxmax` scan: the selected row splits the scanned
list, every row strictly before it has strictly smaller revenue (first
occurrence wins ties), and no row anywhere has larger revenue. -/
lemma firstMaxRow_spec (l : List SummaryRow) : ∀ best : SummaryRow,
    ∃ l₁ l₂, best :: l = l₁ ++ firstMaxRow best l :: l₂ ∧
      (∀ x ∈ l₁, x.TotalRevenue < (firstMaxRow best l).TotalRevenue) ∧
      (∀ x ∈ best :: l, x.TotalRevenue ≤ (firstMaxRow best l).TotalRevenue) := by
  induction l with
  | nil =>
      intro best
      exact ⟨[], [], rfl, by simp, by simp [firstMaxRow]⟩
  | cons r rs ih =>
      intro best
      by_cases hlt : best.TotalRevenue < r.TotalRevenue
      · have e : firstMaxRow best (r :: rs) = firstMaxRow r rs := by
          simp [firstMaxRow, hlt]
        obtain ⟨l₁, l₂, heq, h₁, h₂⟩ := ih r
        have hre : r.TotalRevenue ≤ (firstMaxRow r rs).TotalRevenue :=
          h₂ r (List.mem_cons_self r rs)
        refine ⟨best :: l₁, l₂, ?_, ?_, ?_⟩
        · rw [e, List.cons_append, ← heq]
        · intro x hx
          rw [e]
          rcases List.mem_cons.mp hx with hxb | hx₁
          · rw [hxb]
            exact lt_of_lt_of_le hlt hre
          · exact h₁ x hx₁
        · intro x hx
          rw [e]
          rcases List.mem_cons.mp hx with hxb | hx'
          · rw [hxb]
            exact le_of_lt (lt_of_lt_of_le hlt hre)
          · exact h₂ x hx'
      · have e : firstMaxRow best (r :: rs) = firstMaxRow best rs := by
          simp [firstMaxRow, hlt]
        have hle : r.TotalRevenue ≤ best.TotalRevenue := le_of_not_lt hlt
        obtain ⟨l₁, l₂, heq, h₁, h₂⟩ := ih best
        cases l₁ with
        | nil =>
            simp only [List.nil_append] at heq
            injection heq with hbest hrs
            refine ⟨[], r :: rs, ?_, by simp, ?_⟩
            · rw [e, ← hbest, List.nil_append]
            · intro x hx
              rw [e, ← hbest]
              rcases List.mem_cons.mp hx with hxb | hx'
              · rw [hxb]
              · rcases List.mem_cons.mp hx' with hxr | hxs
                · rw [hxr]
                  exact hle
                · have h0 := h₂ x (List.mem_cons_of_mem best hxs)
                  rwa [← hbest] at h0
        | cons a l₁' =>
            simp only [List.cons_append] at heq
            injection heq with ha hrs
            have hbestlt : best.TotalRevenue < (firstMaxRow best rs).TotalRevenue := by
              have h0 := h₁ a (List.mem_cons_self a l₁')
              rwa [← ha] at h0
            refine ⟨best :: r :: l₁', l₂, ?_, ?_, ?_⟩
            · rw [e]
              simp only [List.cons_append]
              rw [← hrs]
            · intro x hx
              rw [e]
              rcases List.mem_cons.mp hx with hxb | hx'
              · rw [hxb]
                exact hbestlt
              · rcases List.mem_cons.mp hx' with hxr | hx₁
                · rw [hxr]
                  exact lt_of_le_of_lt hle hbestlt
                · exact h₁ x (List.mem_cons_of_mem a hx₁)
            · intro x hx
              rw [e]
              rcases List.mem_cons.mp hx with hxb | hx'
              · rw [hxb]
                exact h₂ best (List.mem_cons_self best rs)
              · rcases List.mem_cons.mp hx' with hxr | hxs
                · rw [hxr]
                  exact le_trans hle (h₂ best (List.mem_cons_self best rs))
                · exact h₂ x (List.mem_cons_of_mem best hxs)

/-- The selected top product of a non-empty summary is the product of the
first row attaining the maximal revenue. -/
lemma top_selling_spec (summary : List SummaryRow) (h : summary ≠ []) :
    ∃ pre best post, summary = pre ++ best :: post ∧
      top_selling_product summary = best.product ∧
      (∀ x ∈ summary, x.TotalRevenue ≤ best.TotalRevenue) ∧
      (∀ x ∈ pre, x.TotalRevenue < best.TotalRevenue) := by
  match summary, h with
  | r :: rs, _ =>
    obtain ⟨l₁, l₂, heq, h₁, h₂⟩ := firstMaxRow_spec rs r
    exact ⟨l₁, firstMaxRow r rs, l₂, heq, rfl, h₂, h₁⟩

/-- Claim C3: on every input with a non-empty grouped summary,
`top_selling_product` is the Product of the summary row with maximal
`TotalRevenue`; on ties it is the first such row in the summary's order
(every earlier row has strictly smaller revenue); and it names a row present
in the returned Product Summary. -/
theorem top_selling_is_first_max (rows : List RawRecord)
    (h : (read_and_analyze_data (.table rows)).1 ≠ []) :
    ∃ pre best post,
      (read_and_analyze_data (.table rows)).1 = pre ++ best :: post ∧
      (read_and_analyze_data (.table rows)).2.2 = best.product ∧
      (∀ x ∈ (read_and_analyze_data (.table rows)).1,
        x.TotalRevenue ≤ best.TotalRevenue) ∧
      (∀ x ∈ pre, x.TotalRevenue < best.TotalRevenue) ∧
      (read_and_analyze_data (.table rows)).2.2 ∈
        (read_and_analyze_data (.table rows)).1.map SummaryRow.product := by
  obtain ⟨pre, best, post, heq, htop, hmax, hfirst⟩ :=
    top_selling_spec (read_and_analyze_data (.table rows)).1 h
  have htop' : (read_and_analyze_data (.table rows)).2.2 = best.product := htop
  have hbestmem : best ∈ (read_and_analyze_data (.table rows)).1 := by
    rw [heq]
    exact List.mem_append_right _ (List.mem_cons_self _ _)
  refine ⟨pre, best, post, heq, htop', hmax, hfirst, ?_⟩
  rw [htop']
  exact List.mem_map_of_mem _ hbestmem

/-- Closed instance of C3 at a one-product table. -/
theorem top_selling_is_first_max_witness :
    ((read_and_analyze_data (.table [⟨some "A", some 1, some 2⟩])).1 ≠ []) ∧
    (∃ pre best post,
      (read_and_analyze_data (.table [⟨some "A", some 1, some 2⟩])).1 = pre ++ best :: post ∧
      (read_and_analyze_data (.table [⟨some "A", some 1, some 2⟩])).2.2 = best.product ∧
      (∀ x ∈ (read_and_analyze_data (.table [⟨some "A", some 1, some 2⟩])).1,
        x.TotalRevenue ≤ best.TotalRevenue) ∧
      (∀ x ∈ pre, x.TotalRevenue < best.TotalRevenue) ∧
      (read_and_analyze_data (.table [⟨some "A", some 1, some 2⟩])).2.2 ∈
        (read_and_analyze_data (.table [⟨some "A", some 1, some 2⟩])).1.map
          SummaryRow.product) := by
  have hne : (read_and_analyze_data (.table [⟨some "A", some 1, some 2⟩])).1 ≠ [] := by
    simp [read_table_eq, product_summary, groupKeys, dropna, List.filterMap, List.dedup]
  exact ⟨hne, top_selling_is_first_max _ hne⟩

/-! ### C8 -/

/-- Claim C8: the specification scenario: three records of products A and B
aggregate to the summary rows A (quantity 5, revenue 50) then B (quantity 1,
revenue 5), with total revenue 55 and top seller A. -/
theorem scenario_two_products :
    read_and_analyze_data (.table
      [⟨some "A", some 2, some 10⟩, ⟨some "B", some 1, some 5⟩, ⟨some "A", some 3, some 10⟩]) =
    ([⟨"A", 5, 50⟩, ⟨"B", 1, 5⟩], 55, "A") := by
  simp +decide [read_and_analyze_data, dropna, product_summary, groupKeys, groupRows,
    total_revenue, TotalPrice, top_selling_product, firstMaxRow, List.dedup]
  norm_num

end SalesReport
